import Mathlib

/-!
Verification of the workflow orchestration subsystem of the stox-gateway
repository: the in-memory workflow state machine, the orchestration
manager, the retrying event publisher and the websocket notification hub.
Go structs become Lean structures, Go methods become pure functions that
return the updated value, wall-clock times are explicit Nat parameters,
and event publishing outcomes are boolean parameters with the attempted
publishes recorded in a trace.
-/

namespace Stox

/-- Status of a workflow, mirroring WorkflowStatus in the Go model. -/
inductive WorkflowStatus where
  | pending
  | processing
  | completed
  | failed
deriving DecidableEq, Repr

/-- The three step types of the fixed pipeline. -/
inductive StepType where
  | image_processing
  | ai_enhancement
  | seo_generation
deriving DecidableEq, Repr

/-- Status of a single workflow step. -/
inductive StepStatus where
  | pending
  | processing
  | completed
  | failed
deriving DecidableEq, Repr

/-- Opaque service-supplied result payload (map of string to string). -/
abbrev ResultMap := List (String × String)

/-- One step of a workflow, mirroring the Go WorkflowStep struct. -/
structure WorkflowStep where
  id : String
  type : StepType
  status : StepStatus
  serviceName : String
  startedAt : Option Nat
  completedAt : Option Nat
  result : ResultMap
  errorMsg : String
deriving DecidableEq, Repr

/-- The product upload payload; the orchestrator never inspects it. -/
structure ProductUploadRequest where
  name : String
  description : String
  images : List String
  category : String
deriving DecidableEq, Repr

/-- A workflow, mirroring the Go Workflow struct.  CurrentStep is the
integer cursor into steps. -/
structure Workflow where
  id : String
  productID : String
  status : WorkflowStatus
  steps : List WorkflowStep
  currentStep : Nat
  createdAt : Nat
  updatedAt : Nat
  completedAt : Option Nat
  metadata : List (String × ProductUploadRequest)
  errorMsg : String
deriving DecidableEq, Repr

/-- NewWorkflow: builds the fixed three-step pipeline, all steps pending,
cursor 0, workflow status pending.  The Go code draws the workflow id and
the three step ids from a UUID source; they are parameters here. -/
def NewWorkflow (workflowID productID : String) (sid1 sid2 sid3 : String)
    (productData : ProductUploadRequest) (now : Nat) : Workflow :=
  { id := workflowID
    productID := productID
    status := .pending
    steps :=
      [ { id := sid1, type := .image_processing, status := .pending,
          serviceName := "image-service", startedAt := none,
          completedAt := none, result := [], errorMsg := "" },
        { id := sid2, type := .ai_enhancement, status := .pending,
          serviceName := "ai-service", startedAt := none,
          completedAt := none, result := [], errorMsg := "" },
        { id := sid3, type := .seo_generation, status := .pending,
          serviceName := "seo-service", startedAt := none,
          completedAt := none, result := [], errorMsg := "" } ]
    currentStep := 0
    createdAt := now
    updatedAt := now
    completedAt := none
    metadata := [("product_data", productData)]
    errorMsg := "" }

/-- Index of the first step whose id matches, mirroring the linear scans
in MarkStepCompleted, MarkStepFailed and StartStep. -/
def findStepIdx (stepID : String) : List WorkflowStep → Option Nat
  | [] => none
  | s :: rest =>
      if s.id = stepID then some 0 else (findStepIdx stepID rest).map (· + 1)

/-- Apply f to the element at index i, leaving the rest unchanged. -/
def modifyIdx (f : WorkflowStep → WorkflowStep) :
    List WorkflowStep → Nat → List WorkflowStep
  | [], _ => []
  | s :: rest, 0 => f s :: rest
  | s :: rest, n + 1 => s :: modifyIdx f rest n

/-- GetCurrentStep: the step the cursor points at, none when the cursor
has run past the end. -/
def Workflow.GetCurrentStep (w : Workflow) : Option WorkflowStep :=
  if w.currentStep ≥ w.steps.length then none else w.steps[w.currentStep]?

/-- The update MarkStepCompleted applies to the matched step. -/
def completeUpd (result : ResultMap) (now : Nat) (s : WorkflowStep) :
    WorkflowStep :=
  { s with status := .completed, completedAt := some now, result := result }

/-- The update MarkStepFailed applies to the matched step. -/
def failUpd (errorMsg : String) (s : WorkflowStep) : WorkflowStep :=
  { s with status := .failed, errorMsg := errorMsg }

/-- The update StartStep applies to the matched step. -/
def startUpd (now : Nat) (s : WorkflowStep) : WorkflowStep :=
  { s with status := .processing, startedAt := some now }

/-- The body of MarkStepCompleted once the matching index i is found:
the step is completed with the supplied result; if it was the current
step the cursor advances, and reaching the end completes the
workflow. -/
def markStepCompletedAt (w : Workflow) (result : ResultMap) (now : Nat)
    (i : Nat) : Workflow :=
  let w' := { w with
              steps := modifyIdx (completeUpd result now) w.steps i
              updatedAt := now }
  if i = w.currentStep then
    if w.currentStep + 1 ≥ w.steps.length then
      { w' with currentStep := w.currentStep + 1, status := .completed,
                completedAt := some now }
    else
      { w' with currentStep := w.currentStep + 1 }
  else w'

/-- MarkStepCompleted: locate the first step whose id matches and apply
the completion update.  A missing id is a silent no-op (the Go method
returns nil either way). -/
def Workflow.MarkStepCompleted (w : Workflow) (stepID : String)
    (result : ResultMap) (now : Nat) : Workflow :=
  match findStepIdx stepID w.steps with
  | none => w
  | some i => markStepCompletedAt w result now i

/-- The body of MarkStepFailed once the matching index i is found: the
step and the whole workflow are marked failed with the same message,
regardless of the workflow's previous status. -/
def markStepFailedAt (w : Workflow) (errorMsg : String) (now : Nat)
    (i : Nat) : Workflow :=
  { w with
    steps := modifyIdx (failUpd errorMsg) w.steps i
    updatedAt := now
    status := .failed
    errorMsg := errorMsg }

/-- MarkStepFailed: locate the first step whose id matches and apply the
failure update.  A missing id is a silent no-op. -/
def Workflow.MarkStepFailed (w : Workflow) (stepID errorMsg : String)
    (now : Nat) : Workflow :=
  match findStepIdx stepID w.steps with
  | none => w
  | some i => markStepFailedAt w errorMsg now i

/-- The body of StartStep once the matching index i is found: the step
is marked processing with startedAt set to now; a pending workflow
becomes processing. -/
def startStepAt (w : Workflow) (now : Nat) (i : Nat) : Workflow :=
  let w' := { w with
              steps := modifyIdx (startUpd now) w.steps i
              updatedAt := now }
  if w.status = .pending then { w' with status := .processing } else w'

/-- StartStep: locate the first step whose id matches and mark it
processing. -/
def Workflow.StartStep (w : Workflow) (stepID : String) (now : Nat) :
    Workflow :=
  match findStepIdx stepID w.steps with
  | none => w
  | some i => startStepAt w now i

/-! ## Orchestration manager

The manager operations from the Go Manager type.  Event publishing is
modelled by a PubEnv of per-publisher outcomes; each operation returns
the updated state, the trace of publishes it attempted, and the error it
returns to its caller. -/

/-- Outcomes of the five event publishers for one operation.  A true
field means the corresponding publish succeeds. -/
structure PubEnv where
  startOk : Bool
  nextOk : Bool
  stepCompletedOk : Bool
  workflowCompletedOk : Bool
  failedOk : Bool
deriving DecidableEq, Repr

/-- A publish attempted on the event bus by a manager operation. -/
inductive Event where
  | workflowStart (workflowID : String)
  | nextStep (workflowID stepID : String) (stepType : StepType)
  | stepCompleted (workflowID stepID : String)
  | workflowCompleted (workflowID : String)
  | workflowFailed (workflowID : String) (msg : String)
deriving DecidableEq, Repr

/-- Errors a manager operation can return to its caller. -/
inductive WfError where
  | workflowNotFound (workflowID : String)
  | noMoreSteps
  | publishStartFailed
  | publishNextFailed
  | stepFailed (msg : String)
deriving DecidableEq, Repr

/-- startNextStepInternal: start the step under the cursor and publish
its dispatch event; the processing mark is kept even when the publish
fails (the error is only surfaced to the caller). -/
def startNextStepInternal (w : Workflow) (now : Nat) (env : PubEnv) :
    Workflow × List Event × Option WfError :=
  match w.GetCurrentStep with
  | none => (w, [], some .noMoreSteps)
  | some cur =>
      let w' := w.StartStep cur.id now
      (w', [.nextStep w.id cur.id cur.type],
        if env.nextOk then none else some .publishNextFailed)

/-- The per-workflow body of Manager.CompleteStep: on success mark the
step completed, publish step-completed (outcome ignored), then either
stop on a completed workflow (publishing workflow-completed, outcome
ignored) or start the next step; on failure mark the step and workflow
failed, publish workflow-failed (outcome ignored) and return the step
failure to the caller. -/
def CompleteStepCore (w : Workflow) (stepID : String) (success : Bool)
    (result : ResultMap) (errorMsg : String) (now : Nat) (env : PubEnv) :
    Workflow × List Event × Option WfError :=
  if success then
    let w1 := w.MarkStepCompleted stepID result now
    if w1.status = .completed then
      (w1, [.stepCompleted w.id stepID, .workflowCompleted w.id], none)
    else
      let r := startNextStepInternal w1 now env
      (r.1, .stepCompleted w.id stepID :: r.2.1, r.2.2)
  else
    let w1 := w.MarkStepFailed stepID errorMsg now
    (w1, [.workflowFailed w.id errorMsg], some (.stepFailed errorMsg))

/-- The workflow stored by Manager.CreateWorkflow: the new workflow is
inserted before any publish; when the start publish fails the operation
returns early with the workflow still pending, otherwise the first step
is started. -/
def CreateWorkflowCore (workflowID productID s1 s2 s3 : String)
    (productData : ProductUploadRequest) (now : Nat) (env : PubEnv) :
    Workflow × List Event × Option WfError :=
  let w := NewWorkflow workflowID productID s1 s2 s3 productData now
  if env.startOk then
    let r := startNextStepInternal w now env
    (r.1, .workflowStart workflowID :: r.2.1, r.2.2)
  else
    (w, [.workflowStart workflowID], some .publishStartFailed)

/-- The workflow map held by the manager, as an association list keyed
by workflow id. -/
abbrev Manager := List (String × Workflow)

/-- Look a workflow up by id (Go map read). -/
def getWf (m : Manager) (workflowID : String) : Option Workflow :=
  (m.find? (fun p => p.1 = workflowID)).map (fun p => p.2)

/-- Store the updated workflow back under its id (the Go code mutates
the mapped value in place). -/
def setWf (m : Manager) (workflowID : String) (w : Workflow) : Manager :=
  m.map (fun p => if p.1 = workflowID then (workflowID, w) else p)

/-- Manager.CompleteStep: look the workflow up, then run the completion
body and store the result. -/
def ManagerCompleteStep (m : Manager) (workflowID stepID : String)
    (success : Bool) (result : ResultMap) (errorMsg : String) (now : Nat)
    (env : PubEnv) : Manager × List Event × Option WfError :=
  match getWf m workflowID with
  | none => (m, [], some (.workflowNotFound workflowID))
  | some w =>
      let r := CompleteStepCore w stepID success result errorMsg now env
      (setWf m workflowID r.1, r.2.1, r.2.2)

/-! ## Event bus retry loop

publishEvent from the events package: up to maxRetries plus one
delivery attempts, a fixed sleep between consecutive attempts, success
on the first attempt that succeeds, otherwise the last error.  The
outcome of attempt number i is given by the environment function
(none means the attempt succeeds); the returned list records the
sleeps performed. -/

/-- The retry loop of publishEvent, starting at attempt i with r
retries left. -/
def publishFrom (attempt : Nat → Option String) (delay : Nat) (i : Nat) :
    Nat → Except String Unit × List Nat
  | 0 =>
      (match attempt i with
       | none => .ok ()
       | some e => .error e, [])
  | r + 1 =>
      match attempt i with
      | none => (.ok (), [])
      | some _ =>
          let rest := publishFrom attempt delay (i + 1) r
          (rest.1, delay :: rest.2)

/-- publishEvent: run the retry loop from attempt 0 with the configured
maximum number of retries. -/
def publishEvent (attempt : Nat → Option String) (maxRetries : Nat)
    (delay : Nat) : Except String Unit × List Nat :=
  publishFrom attempt delay 0 maxRetries

/-! ## Notification hub

BroadcastWorkflowUpdate from the websocket hub: the message goes to
every registered client subscribed to the workflow id; a client whose
bounded send buffer is full is closed and removed from the registry
instead.  Clients of other workflows are untouched. -/

/-- A message pushed to websocket clients. -/
structure WsMessage where
  type : String
  workflowID : String
  data : ResultMap
deriving DecidableEq, Repr

/-- A registered websocket client: its subscription and its bounded
outbound buffer. -/
structure HClient where
  clientID : String
  workflowID : String
  capacity : Nat
  buffer : List WsMessage
deriving DecidableEq, Repr

/-- The hub registry. -/
abbrev Hub := List HClient

/-- BroadcastWorkflowUpdate: returns the registry after the broadcast
together with the list of clients that were closed and removed because
their buffer was full. -/
def BroadcastWorkflowUpdate (h : Hub) (workflowID eventType : String)
    (data : ResultMap) : Hub × List HClient :=
  let msg : WsMessage :=
    { type := eventType, workflowID := workflowID, data := data }
  ( h.filterMap (fun c =>
      if c.workflowID = workflowID then
        if c.buffer.length < c.capacity then
          some { c with buffer := c.buffer ++ [msg] }
        else none
      else some c),
    h.filter (fun c =>
      c.workflowID = workflowID ∧ ¬ c.buffer.length < c.capacity) )

/-! ## Reachable workflow states

A workflow state is reachable when it arises from a fresh creation by
some sequence of manager operations.  Creation draws the three step ids
from a UUID source, so they are pairwise distinct. -/

/-- The ids of the steps of a workflow, in order. -/
def stepIds (w : Workflow) : List String :=
  w.steps.map (fun s => s.id)

/-- Workflow states produced by the manager: creation followed by any
interleaving of StartNextStep and CompleteStep calls with arbitrary
arguments and publish outcomes. -/
inductive Reachable : Workflow → Prop where
  | create (workflowID productID s1 s2 s3 : String)
      (productData : ProductUploadRequest) (now : Nat) (env : PubEnv)
      (h12 : s1 ≠ s2) (h13 : s1 ≠ s3) (h23 : s2 ≠ s3) :
      Reachable (CreateWorkflowCore workflowID productID s1 s2 s3
        productData now env).1
  | startNext (w : Workflow) (now : Nat) (env : PubEnv)
      (h : Reachable w) :
      Reachable (startNextStepInternal w now env).1
  | complete (w : Workflow) (stepID : String) (success : Bool)
      (result : ResultMap) (errorMsg : String) (now : Nat) (env : PubEnv)
      (h : Reachable w) :
      Reachable (CompleteStepCore w stepID success result errorMsg now
        env).1

/-- The inductive state invariant: three steps with pairwise distinct
ids, cursor within bounds, a completed workflow has its cursor at the
end, and only the step under the cursor can be processing. -/
def Inv (w : Workflow) : Prop :=
  w.steps.length = 3 ∧
  (stepIds w).Nodup ∧
  w.currentStep ≤ w.steps.length ∧
  (w.status = .completed → w.currentStep = w.steps.length) ∧
  (∀ i s, w.steps[i]? = some s → s.status = .processing →
    i = w.currentStep)

/-! ## Helper lemmas about modifyIdx and findStepIdx -/

theorem modifyIdx_length (f : WorkflowStep → WorkflowStep)
    (l : List WorkflowStep) (i : Nat) :
    (modifyIdx f l i).length = l.length := by
  induction l generalizing i with
  | nil => rfl
  | cons s rest ih =>
      cases i with
      | zero => rfl
      | succ n => simpa [modifyIdx] using ih n

theorem getElem?_modifyIdx (f : WorkflowStep → WorkflowStep)
    (l : List WorkflowStep) (i j : Nat) :
    (modifyIdx f l i)[j]? = if i = j then (l[j]?).map f else l[j]? := by
  induction l generalizing i j with
  | nil => simp [modifyIdx]
  | cons s rest ih =>
      cases i with
      | zero =>
          cases j with
          | zero => simp [modifyIdx]
          | succ m => simp [modifyIdx]
      | succ n =>
          cases j with
          | zero => simp [modifyIdx]
          | succ m => simpa [modifyIdx] using ih n m

theorem map_id_modifyIdx (f : WorkflowStep → WorkflowStep)
    (hf : ∀ s, (f s).id = s.id) (l : List WorkflowStep) (i : Nat) :
    (modifyIdx f l i).map (fun s => s.id) = l.map (fun s => s.id) := by
  induction l generalizing i with
  | nil => rfl
  | cons s rest ih =>
      cases i with
      | zero => simp [modifyIdx, hf]
      | succ n => simpa [modifyIdx] using ih n

theorem findStepIdx_some {sid : String} {l : List WorkflowStep} {i : Nat}
    (h : findStepIdx sid l = some i) :
    ∃ s, l[i]? = some s ∧ s.id = sid := by
  induction l generalizing i with
  | nil => simp [findStepIdx] at h
  | cons a rest ih =>
      by_cases ha : a.id = sid
      · simp [findStepIdx, ha] at h
        subst h
        exact ⟨a, by simp, ha⟩
      · simp [findStepIdx, ha] at h
        obtain ⟨m, hm, rfl⟩ := h
        obtain ⟨s, hs, hsid⟩ := ih hm
        exact ⟨s, by simpa using hs, hsid⟩

theorem findStepIdx_of_nodup {sid : String} {l : List WorkflowStep}
    {i : Nat} {s : WorkflowStep}
    (hnd : (l.map (fun s => s.id)).Nodup)
    (hget : l[i]? = some s) (hid : s.id = sid) :
    findStepIdx sid l = some i := by
  induction l generalizing i with
  | nil => simp at hget
  | cons a rest ih =>
      cases i with
      | zero =>
          simp at hget
          subst hget
          simp [findStepIdx, hid]
      | succ m =>
          simp at hget
          have hmem : s ∈ rest := by
            exact List.getElem?_mem hget
          have hnd' : a.id ∉ rest.map (fun s => s.id) ∧
              (rest.map (fun s => s.id)).Nodup := by
            simpa [List.nodup_cons] using hnd
          have hane : ¬ a.id = sid := by
            intro hasid
            refine hnd'.1 ?_
            rw [hasid, ← hid]
            exact List.mem_map_of_mem _ hmem
          have := ih hnd'.2 hget
          simp [findStepIdx, hane, this]

theorem findStepIdx_eq_none {sid : String} {l : List WorkflowStep} :
    findStepIdx sid l = none ↔ ∀ s ∈ l, s.id ≠ sid := by
  induction l with
  | nil => simp [findStepIdx]
  | cons a rest ih =>
      by_cases ha : a.id = sid
      · simp [findStepIdx, ha]
      · simp [findStepIdx, ha, ih]

/-! ## Equation lemmas for the lookup-then-update operations -/

theorem MarkStepCompleted_none (w : Workflow) {sid : String}
    (res : ResultMap) (now : Nat) (h : findStepIdx sid w.steps = none) :
    w.MarkStepCompleted sid res now = w := by
  unfold Workflow.MarkStepCompleted
  rw [h]

theorem MarkStepCompleted_some (w : Workflow) {sid : String} {i : Nat}
    (res : ResultMap) (now : Nat) (h : findStepIdx sid w.steps = some i) :
    w.MarkStepCompleted sid res now = markStepCompletedAt w res now i := by
  unfold Workflow.MarkStepCompleted
  rw [h]

theorem MarkStepFailed_none (w : Workflow) {sid : String}
    (errorMsg : String) (now : Nat) (h : findStepIdx sid w.steps = none) :
    w.MarkStepFailed sid errorMsg now = w := by
  unfold Workflow.MarkStepFailed
  rw [h]

theorem MarkStepFailed_some (w : Workflow) {sid : String} {i : Nat}
    (errorMsg : String) (now : Nat) (h : findStepIdx sid w.steps = some i) :
    w.MarkStepFailed sid errorMsg now = markStepFailedAt w errorMsg now i := by
  unfold Workflow.MarkStepFailed
  rw [h]

theorem StartStep_none (w : Workflow) {sid : String} (now : Nat)
    (h : findStepIdx sid w.steps = none) : w.StartStep sid now = w := by
  unfold Workflow.StartStep
  rw [h]

theorem StartStep_some (w : Workflow) {sid : String} {i : Nat} (now : Nat)
    (h : findStepIdx sid w.steps = some i) :
    w.StartStep sid now = startStepAt w now i := by
  unfold Workflow.StartStep
  rw [h]

theorem GetCurrentStep_some {w : Workflow}
    (h : w.currentStep < w.steps.length) :
    w.GetCurrentStep = w.steps[w.currentStep]? := by
  unfold Workflow.GetCurrentStep
  rw [if_neg (by omega)]

theorem GetCurrentStep_none {w : Workflow}
    (h : w.currentStep ≥ w.steps.length) : w.GetCurrentStep = none := by
  unfold Workflow.GetCurrentStep
  rw [if_pos h]

/-! ## Invariant preservation -/

theorem inv_markStepCompletedAt (w : Workflow) (res : ResultMap)
    (now : Nat) (i : Nat) (hilt : i < w.steps.length) (hw : Inv w) :
    Inv (markStepCompletedAt w res now i) := by
  obtain ⟨hlen, hnd, hcur, hcomp, hproc⟩ := hw
  have hids := map_id_modifyIdx (completeUpd res now) (fun s => rfl)
    w.steps i
  have hmlen := modifyIdx_length (completeUpd res now) w.steps i
  have hget : ∀ j s',
      (modifyIdx (completeUpd res now) w.steps i)[j]? = some s' →
      s'.status = .processing → j ≠ i ∧ w.steps[j]? = some s' := by
    intro j s' hj hst
    rw [getElem?_modifyIdx] at hj
    by_cases hij : i = j
    · subst hij
      cases hmm : w.steps[i]? with
      | none => simp [hmm] at hj
      | some t =>
          simp [hmm] at hj
          rw [← hj] at hst
          simp [completeUpd] at hst
    · simp [hij] at hj
      exact ⟨fun h => hij h.symm, hj⟩
  unfold markStepCompletedAt
  dsimp only
  by_cases hic : i = w.currentStep
  · by_cases hend : w.currentStep + 1 ≥ w.steps.length
    · rw [if_pos hic, if_pos hend]
      refine ⟨?_, ?_, ?_, ?_, ?_⟩
      · simpa [hmlen] using hlen
      · simpa [stepIds, hids] using hnd
      · simp only [hmlen]
        omega
      · intro _
        simp only [hmlen]
        omega
      · intro j s' hj hst
        obtain ⟨hji, hjold⟩ := hget j s' hj hst
        have := hproc j s' hjold hst
        exact absurd (this.trans hic.symm) hji
    · rw [if_pos hic, if_neg hend]
      refine ⟨?_, ?_, ?_, ?_, ?_⟩
      · simpa [hmlen] using hlen
      · simpa [stepIds, hids] using hnd
      · simp only [hmlen]
        omega
      · intro hcst
        have := hcomp hcst
        omega
      · intro j s' hj hst
        obtain ⟨hji, hjold⟩ := hget j s' hj hst
        have := hproc j s' hjold hst
        exact absurd (this.trans hic.symm) hji
  · rw [if_neg hic]
    refine ⟨?_, ?_, ?_, ?_, ?_⟩
    · simpa [hmlen] using hlen
    · simpa [stepIds, hids] using hnd
    · simpa [hmlen] using hcur
    · intro hcst
      simp only [hmlen]
      exact hcomp hcst
    · intro j s' hj hst
      obtain ⟨hji, hjold⟩ := hget j s' hj hst
      exact hproc j s' hjold hst

theorem inv_MarkStepCompleted (w : Workflow) (sid : String)
    (res : ResultMap) (now : Nat) (hw : Inv w) :
    Inv (w.MarkStepCompleted sid res now) := by
  cases hfind : findStepIdx sid w.steps with
  | none => rw [MarkStepCompleted_none w res now hfind]; exact hw
  | some i =>
      rw [MarkStepCompleted_some w res now hfind]
      obtain ⟨s, hs, _⟩ := findStepIdx_some hfind
      exact inv_markStepCompletedAt w res now i
        (List.getElem?_eq_some.mp hs).1 hw

theorem inv_markStepFailedAt (w : Workflow) (errorMsg : String)
    (now : Nat) (i : Nat) (hw : Inv w) :
    Inv (markStepFailedAt w errorMsg now i) := by
  obtain ⟨hlen, hnd, hcur, hcomp, hproc⟩ := hw
  have hids := map_id_modifyIdx (failUpd errorMsg) (fun s => rfl) w.steps i
  have hmlen := modifyIdx_length (failUpd errorMsg) w.steps i
  unfold markStepFailedAt
  refine ⟨?_, ?_, ?_, ?_, ?_⟩
  · simpa [hmlen] using hlen
  · simpa [stepIds, hids] using hnd
  · simpa [hmlen] using hcur
  · intro hcst
    simp at hcst
  · intro j s' hj hst
    rw [getElem?_modifyIdx] at hj
    by_cases hij : i = j
    · subst hij
      cases hmm : w.steps[i]? with
      | none => simp [hmm] at hj
      | some t =>
          simp [hmm] at hj
          rw [← hj] at hst
          simp [failUpd] at hst
    · simp [hij] at hj
      exact hproc j s' hj hst

theorem inv_MarkStepFailed (w : Workflow) (sid errorMsg : String)
    (now : Nat) (hw : Inv w) : Inv (w.MarkStepFailed sid errorMsg now) := by
  cases hfind : findStepIdx sid w.steps with
  | none => rw [MarkStepFailed_none w errorMsg now hfind]; exact hw
  | some i =>
      rw [MarkStepFailed_some w errorMsg now hfind]
      exact inv_markStepFailedAt w errorMsg now i hw

theorem startNextStepInternal_none {w : Workflow} (now : Nat)
    (env : PubEnv) (h : w.GetCurrentStep = none) :
    startNextStepInternal w now env = (w, [], some .noMoreSteps) := by
  unfold startNextStepInternal
  rw [h]

theorem startNextStepInternal_some {w : Workflow} {cur : WorkflowStep}
    (now : Nat) (env : PubEnv) (h : w.GetCurrentStep = some cur) :
    startNextStepInternal w now env =
      (w.StartStep cur.id now, [.nextStep w.id cur.id cur.type],
        if env.nextOk then none else some .publishNextFailed) := by
  unfold startNextStepInternal
  rw [h]

theorem inv_startStepAt_cur (w : Workflow) (now : Nat) (hw : Inv w)
    (hlt : w.currentStep < w.steps.length) :
    Inv (startStepAt w now w.currentStep) := by
  obtain ⟨hlen, hnd, hcur, hcomp, hproc⟩ := hw
  have hids := map_id_modifyIdx (startUpd now) (fun s => rfl) w.steps
    w.currentStep
  have hmlen := modifyIdx_length (startUpd now) w.steps w.currentStep
  have hget : ∀ j s',
      (modifyIdx (startUpd now) w.steps w.currentStep)[j]? = some s' →
      s'.status = .processing → j = w.currentStep := by
    intro j s' hj hst
    rw [getElem?_modifyIdx] at hj
    by_cases hij : w.currentStep = j
    · exact hij.symm
    · simp [hij] at hj
      exact hproc j s' hj hst
  unfold startStepAt
  dsimp only
  by_cases hp : w.status = .pending
  · rw [if_pos hp]
    refine ⟨?_, ?_, ?_, ?_, ?_⟩
    · simpa [hmlen] using hlen
    · simpa [stepIds, hids] using hnd
    · simpa [hmlen] using hcur
    · intro hcst
      simp at hcst
    · exact hget
  · rw [if_neg hp]
    refine ⟨?_, ?_, ?_, ?_, ?_⟩
    · simpa [hmlen] using hlen
    · simpa [stepIds, hids] using hnd
    · simpa [hmlen] using hcur
    · intro hcst
      have := hcomp hcst
      omega
    · exact hget

theorem inv_startNextStepInternal (w : Workflow) (now : Nat)
    (env : PubEnv) (hw : Inv w) :
    Inv (startNextStepInternal w now env).1 := by
  by_cases hlt : w.currentStep < w.steps.length
  · have hget : w.steps[w.currentStep]? =
        some (w.steps.get ⟨w.currentStep, hlt⟩) := by
      simp [List.getElem?_eq_getElem hlt]
    have hcur : w.GetCurrentStep = some (w.steps.get ⟨w.currentStep, hlt⟩) := by
      rw [GetCurrentStep_some hlt]
      exact hget
    rw [startNextStepInternal_some now env hcur]
    dsimp only
    have hfind : findStepIdx (w.steps.get ⟨w.currentStep, hlt⟩).id w.steps =
        some w.currentStep :=
      findStepIdx_of_nodup hw.2.1 hget rfl
    rw [StartStep_some w now hfind]
    exact inv_startStepAt_cur w now hw hlt
  · rw [startNextStepInternal_none now env
      (GetCurrentStep_none (Nat.le_of_not_lt hlt))]
    exact hw

theorem inv_CompleteStepCore (w : Workflow) (sid : String) (success : Bool)
    (res : ResultMap) (errorMsg : String) (now : Nat) (env : PubEnv)
    (hw : Inv w) :
    Inv (CompleteStepCore w sid success res errorMsg now env).1 := by
  unfold CompleteStepCore
  cases success with
  | false =>
      simp only [Bool.false_eq_true, if_false]
      exact inv_MarkStepFailed w sid errorMsg now hw
  | true =>
      simp only [if_true]
      by_cases hc : (w.MarkStepCompleted sid res now).status = .completed
      · rw [if_pos hc]
        exact inv_MarkStepCompleted w sid res now hw
      · rw [if_neg hc]
        exact inv_startNextStepInternal _ now env
          (inv_MarkStepCompleted w sid res now hw)

theorem inv_NewWorkflow (workflowID productID s1 s2 s3 : String)
    (productData : ProductUploadRequest) (now : Nat)
    (h12 : s1 ≠ s2) (h13 : s1 ≠ s3) (h23 : s2 ≠ s3) :
    Inv (NewWorkflow workflowID productID s1 s2 s3 productData now) := by
  refine ⟨rfl, ?_, by simp [NewWorkflow], ?_, ?_⟩
  · simp [stepIds, NewWorkflow, h12, h13, h23]
  · intro h
    simp [NewWorkflow] at h
  · intro i s h hst
    rcases i with _ | _ | _ | n <;> simp [NewWorkflow] at h <;>
      rw [← h] at hst <;> simp at hst

theorem inv_CreateWorkflowCore (workflowID productID s1 s2 s3 : String)
    (productData : ProductUploadRequest) (now : Nat) (env : PubEnv)
    (h12 : s1 ≠ s2) (h13 : s1 ≠ s3) (h23 : s2 ≠ s3) :
    Inv (CreateWorkflowCore workflowID productID s1 s2 s3 productData now
      env).1 := by
  unfold CreateWorkflowCore
  by_cases hs : env.startOk
  · simp only [hs, if_true]
    exact inv_startNextStepInternal _ now env
      (inv_NewWorkflow workflowID productID s1 s2 s3 productData now
        h12 h13 h23)
  · simp only [hs, Bool.false_eq_true, if_false]
    exact inv_NewWorkflow workflowID productID s1 s2 s3 productData now
      h12 h13 h23

theorem inv_reachable {w : Workflow} (h : Reachable w) : Inv w := by
  induction h with
  | create workflowID productID s1 s2 s3 productData now env h12 h13 h23 =>
      exact inv_CreateWorkflowCore workflowID productID s1 s2 s3
        productData now env h12 h13 h23
  | startNext w now env h ih => exact inv_startNextStepInternal w now env ih
  | complete w stepID success result errorMsg now env h ih =>
      exact inv_CompleteStepCore w stepID success result errorMsg now env ih

/-! ## Claim C4: shape of a freshly created workflow -/

/-- C4: for every product payload, the workflow built at creation has
exactly three steps in the fixed order image_processing, ai_enhancement,
seo_generation, every step has status Pending, currentStepIndex equals
0, and the workflow status is Pending. -/
theorem c4_new_workflow_shape (workflowID productID s1 s2 s3 : String)
    (productData : ProductUploadRequest) (now : Nat) :
    (NewWorkflow workflowID productID s1 s2 s3 productData now).steps.length
      = 3 ∧
    (NewWorkflow workflowID productID s1 s2 s3 productData
      now).steps.map (fun s => s.type) =
      [.image_processing, .ai_enhancement, .seo_generation] ∧
    (∀ s ∈ (NewWorkflow workflowID productID s1 s2 s3 productData
      now).steps, s.status = .pending) ∧
    (NewWorkflow workflowID productID s1 s2 s3 productData
      now).currentStep = 0 ∧
    (NewWorkflow workflowID productID s1 s2 s3 productData now).status =
      .pending := by
  refine ⟨rfl, rfl, ?_, rfl, rfl⟩
  intro s hs
  simp [NewWorkflow] at hs
  rcases hs with h | h | h <;> rw [h]

/-- A concrete payload used by the C4 witness. -/
def demoProductC4 : ProductUploadRequest :=
  { name := "Desk", description := "", images := [], category := "home" }

/-- Witness for C4 at a concrete payload: the created workflow has 3
pending steps, cursor 0 and status Pending. -/
theorem c4_new_workflow_shape_witness :
    (NewWorkflow "wf9" "p9" "a1" "a2" "a3" demoProductC4
      0).steps.length = 3 ∧
    (NewWorkflow "wf9" "p9" "a1" "a2" "a3" demoProductC4 0).status =
      .pending :=
  ⟨(c4_new_workflow_shape "wf9" "p9" "a1" "a2" "a3" demoProductC4 0).1,
   (c4_new_workflow_shape "wf9" "p9" "a1" "a2" "a3" demoProductC4
     0).2.2.2.2⟩

/-! ## Claim C8: event bus retry loop -/

theorem publishFrom_zero_none {attempt : Nat → Option String}
    {i : Nat} (delay : Nat) (h : attempt i = none) :
    publishFrom attempt delay i 0 = (.ok (), []) := by
  unfold publishFrom
  rw [h]

theorem publishFrom_zero_some {attempt : Nat → Option String}
    {i : Nat} {e : String} (delay : Nat) (h : attempt i = some e) :
    publishFrom attempt delay i 0 = (.error e, []) := by
  unfold publishFrom
  rw [h]

theorem publishFrom_succ_none {attempt : Nat → Option String}
    {i : Nat} (delay r : Nat) (h : attempt i = none) :
    publishFrom attempt delay i (r + 1) = (.ok (), []) := by
  unfold publishFrom
  rw [h]

theorem publishFrom_succ_some {attempt : Nat → Option String}
    {i : Nat} {e : String} (delay r : Nat) (h : attempt i = some e) :
    publishFrom attempt delay i (r + 1) =
      ((publishFrom attempt delay (i + 1) r).1,
        delay :: (publishFrom attempt delay (i + 1) r).2) := by
  conv_lhs => unfold publishFrom
  rw [h]

/-- The outcome and sleep trace of the retry loop, for any starting
attempt index. -/
theorem publishFrom_spec (attempt : Nat → Option String) (delay : Nat) :
    ∀ (r i : Nat),
      ((publishFrom attempt delay i r).1 = .ok () ↔
        ∃ k, k ≤ r ∧ attempt (i + k) = none) ∧
      (∀ e, (publishFrom attempt delay i r).1 = .error e →
        attempt (i + r) = some e) ∧
      (∀ d ∈ (publishFrom attempt delay i r).2, d = delay) := by
  intro r
  induction r with
  | zero =>
      intro i
      cases h : attempt i with
      | none =>
          rw [publishFrom_zero_none delay h]
          refine ⟨?_, ?_, ?_⟩
          · constructor
            · intro _
              exact ⟨0, Nat.le_refl 0, by simpa using h⟩
            · intro _
              rfl
          · intro e he
            simp at he
          · intro d hd
            simp at hd
      | some e0 =>
          rw [publishFrom_zero_some delay h]
          refine ⟨?_, ?_, ?_⟩
          · constructor
            · intro he
              simp at he
            · rintro ⟨k, hk, hko⟩
              interval_cases k
              simp [h] at hko
          · intro e he
            simp at he
            rw [← he]
            simpa using h
          · intro d hd
            simp at hd
  | succ r ih =>
      intro i
      cases h : attempt i with
      | none =>
          rw [publishFrom_succ_none delay r h]
          refine ⟨?_, ?_, ?_⟩
          · constructor
            · intro _
              exact ⟨0, Nat.zero_le _, by simpa using h⟩
            · intro _
              rfl
          · intro e he
            simp at he
          · intro d hd
            simp at hd
      | some e0 =>
          rw [publishFrom_succ_some delay r h]
          obtain ⟨hok, herr, hdel⟩ := ih (i + 1)
          refine ⟨?_, ?_, ?_⟩
          · dsimp only
            rw [hok]
            constructor
            · rintro ⟨k, hk, hko⟩
              refine ⟨k + 1, by omega, ?_⟩
              have harith : i + (k + 1) = i + 1 + k := by omega
              rw [harith]
              exact hko
            · rintro ⟨k, hk, hko⟩
              cases k with
              | zero => simp [h] at hko
              | succ k' =>
                  refine ⟨k', by omega, ?_⟩
                  have harith : i + 1 + k' = i + (k' + 1) := by omega
                  rw [harith]
                  exact hko
          · intro e he
            dsimp only at he
            have := herr e he
            have harith : i + 1 + r = i + (r + 1) := by omega
            rw [harith] at this
            exact this
          · intro d hd
            simp only [List.mem_cons] at hd
            rcases hd with hd | hd
            · exact hd
            · exact hdel d hd

/-- C8: publish attempts delivery and on per-attempt failure retries
with a fixed inter-attempt delay until the configured maximum number of
retries is exhausted; it succeeds iff some attempt within the budget
succeeds, and otherwise returns the error of the last failed attempt. -/
theorem c8_publish_retry (attempt : Nat → Option String)
    (maxRetries delay : Nat) :
    ((publishEvent attempt maxRetries delay).1 = .ok () ↔
      ∃ k, k ≤ maxRetries ∧ attempt k = none) ∧
    (∀ e, (publishEvent attempt maxRetries delay).1 = .error e →
      attempt maxRetries = some e) ∧
    (∀ d ∈ (publishEvent attempt maxRetries delay).2, d = delay) := by
  have := publishFrom_spec attempt delay maxRetries 0
  simpa [publishEvent] using this

/-- Witness for C8 at a concrete attempt pattern: two failures then a
success within a budget of three retries. -/
theorem c8_publish_retry_witness :
    (publishEvent (fun i => if i < 2 then some "down" else none) 3 7).1 =
      .ok () :=
  (c8_publish_retry (fun i => if i < 2 then some "down" else none) 3
    7).1.mpr ⟨2, by omega, by simp⟩

/-! ## Claim C9: hub broadcast delivery -/

theorem filterMap_eq_self_of {α : Type} (f : α → Option α) :
    ∀ l : List α, (∀ a ∈ l, f a = some a) → l.filterMap f = l
  | [], _ => rfl
  | a :: t, h => by
      rw [List.filterMap_cons, h a (List.mem_cons_self a t),
        filterMap_eq_self_of f t (fun b hb => h b (List.mem_cons_of_mem a hb))]

/-- C9: a broadcast delivers the typed message exactly to the currently
registered observers subscribed to the workflow id; with no subscribed
observer it is a no-op; a full-buffer observer is closed and removed
while the remaining subscribed observers still receive the message. -/
theorem c9_broadcast_delivery (h : Hub) (workflowID eventType : String)
    (data : ResultMap) :
    (∀ c ∈ h, c.workflowID ≠ workflowID →
      c ∈ (BroadcastWorkflowUpdate h workflowID eventType data).1) ∧
    (∀ c ∈ h, c.workflowID = workflowID → c.buffer.length < c.capacity →
      { c with buffer := c.buffer ++
          [{ type := eventType, workflowID := workflowID, data := data }] }
        ∈ (BroadcastWorkflowUpdate h workflowID eventType data).1) ∧
    (∀ c ∈ h, c.workflowID = workflowID →
      ¬ c.buffer.length < c.capacity →
      c ∈ (BroadcastWorkflowUpdate h workflowID eventType data).2) ∧
    (∀ c', c' ∈ (BroadcastWorkflowUpdate h workflowID eventType data).1 →
      ∃ c ∈ h, (c.workflowID ≠ workflowID ∧ c' = c) ∨
        (c.workflowID = workflowID ∧ c.buffer.length < c.capacity ∧
          c' = { c with buffer := c.buffer ++
            [{ type := eventType, workflowID := workflowID,
               data := data }] })) ∧
    ((∀ c ∈ h, c.workflowID ≠ workflowID) →
      (BroadcastWorkflowUpdate h workflowID eventType data).1 = h ∧
      (BroadcastWorkflowUpdate h workflowID eventType data).2 = []) := by
  refine ⟨?_, ?_, ?_, ?_, ?_⟩
  · intro c hc hne
    refine List.mem_filterMap.mpr ⟨c, hc, ?_⟩
    simp [hne]
  · intro c hc heq hroom
    refine List.mem_filterMap.mpr ⟨c, hc, ?_⟩
    simp [heq, hroom]
  · intro c hc heq hfull
    refine List.mem_filter.mpr ⟨hc, ?_⟩
    simp [heq, hfull]
  · intro c' hc'
    obtain ⟨c, hc, hfc⟩ := List.mem_filterMap.mp hc'
    refine ⟨c, hc, ?_⟩
    by_cases heq : c.workflowID = workflowID
    · by_cases hroom : c.buffer.length < c.capacity
      · right
        refine ⟨heq, hroom, ?_⟩
        simp [heq, hroom] at hfc
        rw [heq]
        exact hfc.symm
      · exfalso
        simp [heq, hroom] at hfc
    · left
      refine ⟨heq, ?_⟩
      simp [heq] at hfc
      exact hfc.symm
  · intro hall
    constructor
    · refine filterMap_eq_self_of _ h ?_
      intro c hc
      simp [hall c hc]
    · unfold BroadcastWorkflowUpdate
      rw [List.filter_eq_nil_iff]
      intro c hc
      simp [hall c hc]

/-- Witness client: subscribed to the broadcast workflow with room in
its buffer. -/
def wcA : HClient :=
  { clientID := "a", workflowID := "w1", capacity := 2, buffer := [] }

/-- Witness client: subscribed but with a full buffer. -/
def wcB : HClient :=
  { clientID := "b", workflowID := "w1", capacity := 1,
    buffer := [{ type := "old", workflowID := "w1", data := [] }] }

/-- Witness client: subscribed to a different workflow. -/
def wcC : HClient :=
  { clientID := "c", workflowID := "w2", capacity := 2, buffer := [] }

/-- Witness for C9 on a concrete hub: the roomy subscriber receives the
message, the full one is closed and removed, the observer of another
workflow is untouched. -/
theorem c9_broadcast_delivery_witness :
    { wcA with buffer := wcA.buffer ++
        [{ type := "step_completed", workflowID := "w1", data := [] }] }
      ∈ (BroadcastWorkflowUpdate [wcA, wcB, wcC] "w1" "step_completed"
          []).1 ∧
    wcB ∈ (BroadcastWorkflowUpdate [wcA, wcB, wcC] "w1" "step_completed"
      []).2 ∧
    wcC ∈ (BroadcastWorkflowUpdate [wcA, wcB, wcC] "w1" "step_completed"
      []).1 := by
  obtain ⟨h1, h2, h3, _, _⟩ :=
    c9_broadcast_delivery [wcA, wcB, wcC] "w1" "step_completed" []
  exact ⟨h2 wcA (by simp) rfl (by decide),
    h3 wcB (by simp) rfl (by decide),
    h1 wcC (by simp) (by decide)⟩

/-! ## Concrete workflow runs used as witnesses and counterexamples -/

/-- Publish environment in which every publish succeeds. -/
def envAll : PubEnv :=
  { startOk := true, nextOk := true, stepCompletedOk := true,
    workflowCompletedOk := true, failedOk := true }

/-- A concrete product payload. -/
def demoProduct : ProductUploadRequest :=
  { name := "Chair", description := "", images := [], category := "home" }

/-- A freshly created and started workflow: step 1 processing. -/
def demoW0 : Workflow :=
  (CreateWorkflowCore "wf1" "p1" "s1" "s2" "s3" demoProduct 0 envAll).1

/-- After completing step 1: step 2 processing. -/
def demoW1 : Workflow :=
  (CompleteStepCore demoW0 "s1" true [("url", "x")] "" 1 envAll).1

/-- After completing step 2: step 3 processing. -/
def demoW2 : Workflow := (CompleteStepCore demoW1 "s2" true [] "" 2 envAll).1

/-- After completing step 3: the workflow is completed. -/
def demoW3 : Workflow := (CompleteStepCore demoW2 "s3" true [] "" 3 envAll).1

/-- A failure reported for step 1 after the workflow completed. -/
def demoW4 : Workflow :=
  (CompleteStepCore demoW3 "s1" false [] "boom" 4 envAll).1

theorem demoW0_reachable : Reachable demoW0 :=
  Reachable.create "wf1" "p1" "s1" "s2" "s3" demoProduct 0 envAll
    (by decide) (by decide) (by decide)

theorem demoW1_reachable : Reachable demoW1 :=
  Reachable.complete demoW0 "s1" true [("url", "x")] "" 1 envAll
    demoW0_reachable

theorem demoW2_reachable : Reachable demoW2 :=
  Reachable.complete demoW1 "s2" true [] "" 2 envAll demoW1_reachable

theorem demoW3_reachable : Reachable demoW3 :=
  Reachable.complete demoW2 "s3" true [] "" 3 envAll demoW2_reachable

theorem demoW4_reachable : Reachable demoW4 :=
  Reachable.complete demoW3 "s1" false [] "boom" 4 envAll demoW3_reachable

/-! ## Claim C1: terminality of Completed and Failed -/

theorem StartStep_status_of_ne_pending (w : Workflow) (sid : String)
    (now : Nat) (h : w.status ≠ .pending) :
    (w.StartStep sid now).status = w.status := by
  cases hfind : findStepIdx sid w.steps with
  | none => rw [StartStep_none w now hfind]
  | some i =>
      rw [StartStep_some w now hfind]
      unfold startStepAt
      dsimp only
      rw [if_neg h]

theorem MarkStepCompleted_status_completed (w : Workflow) (sid : String)
    (res : ResultMap) (now : Nat) (h : w.status = .completed) :
    (w.MarkStepCompleted sid res now).status = .completed := by
  cases hfind : findStepIdx sid w.steps with
  | none => rw [MarkStepCompleted_none w res now hfind]; exact h
  | some i =>
      rw [MarkStepCompleted_some w res now hfind]
      unfold markStepCompletedAt
      dsimp only
      by_cases hic : i = w.currentStep
      · by_cases hend : w.currentStep + 1 ≥ w.steps.length
        · rw [if_pos hic, if_pos hend]
        · rw [if_pos hic, if_neg hend]; exact h
      · rw [if_neg hic]; exact h

theorem MarkStepFailed_status_failed (w : Workflow) (sid errorMsg : String)
    (now : Nat) (h : w.status = .failed) :
    (w.MarkStepFailed sid errorMsg now).status = .failed := by
  cases hfind : findStepIdx sid w.steps with
  | none => rw [MarkStepFailed_none w errorMsg now hfind]; exact h
  | some i => rw [MarkStepFailed_some w errorMsg now hfind]; rfl

/-- C1 counterexample: demoW3 is a reachable workflow with status
Completed, yet a subsequent CompleteStep with success=false (which runs
MarkStepFailed) changes its status to Failed, so Completed is not a
terminal state of the implemented state machine. -/
theorem c1_terminal_counterexample :
    Reachable demoW3 ∧ demoW3.status = .completed ∧
    (CompleteStepCore demoW3 "s1" false [] "boom" 4 envAll).1.status =
      .failed ∧
    (demoW3.MarkStepFailed "s1" "boom" 4).status = .failed :=
  ⟨demoW3_reachable, by decide, by decide, by decide⟩

/-- C1 (amended): Completed and Failed are preserved by StartStep;
Completed is preserved by MarkStepCompleted and by a success-path
CompleteStep; Failed is preserved by MarkStepFailed and by a
failure-path CompleteStep.  (A failure report can still move a
Completed workflow to Failed, and success reports can move a Failed
workflow, so neither status is terminal against the full operation
set.) -/
theorem c1_terminal_amended (w : Workflow) (sid : String)
    (res : ResultMap) (errorMsg : String) (now : Nat) (env : PubEnv) :
    (w.status = .completed →
      (w.StartStep sid now).status = .completed ∧
      (w.MarkStepCompleted sid res now).status = .completed ∧
      (CompleteStepCore w sid true res errorMsg now env).1.status =
        .completed) ∧
    (w.status = .failed →
      (w.StartStep sid now).status = .failed ∧
      (w.MarkStepFailed sid errorMsg now).status = .failed ∧
      (CompleteStepCore w sid false res errorMsg now env).1.status =
        .failed) := by
  constructor
  · intro h
    have hmc := MarkStepCompleted_status_completed w sid res now h
    refine ⟨?_, hmc, ?_⟩
    · rw [StartStep_status_of_ne_pending w sid now (by rw [h]; simp)]
      exact h
    · unfold CompleteStepCore
      simp only [if_true]
      rw [if_pos hmc]
      exact hmc
  · intro h
    refine ⟨?_, MarkStepFailed_status_failed w sid errorMsg now h, ?_⟩
    · rw [StartStep_status_of_ne_pending w sid now (by rw [h]; simp)]
      exact h
    · unfold CompleteStepCore
      simp only [Bool.false_eq_true, if_false]
      exact MarkStepFailed_status_failed w sid errorMsg now h

/-- Witness for the amended C1 at the completed workflow demoW3. -/
theorem c1_terminal_amended_witness :
    (demoW3.StartStep "s2" 7).status = .completed ∧
    (demoW3.MarkStepCompleted "s2" [] 7).status = .completed ∧
    (CompleteStepCore demoW3 "s2" true [] "" 7 envAll).1.status =
      .completed :=
  (c1_terminal_amended demoW3 "s2" [] "" 7 envAll).1 (by decide)

/-! ## Branch equations for the orchestration operations -/

theorem startStepAt_steps (w : Workflow) (now i : Nat) :
    (startStepAt w now i).steps = modifyIdx (startUpd now) w.steps i := by
  unfold startStepAt
  dsimp only
  split <;> rfl

theorem startStepAt_currentStep (w : Workflow) (now i : Nat) :
    (startStepAt w now i).currentStep = w.currentStep := by
  unfold startStepAt
  dsimp only
  split <;> rfl

theorem markStepCompletedAt_noncur (w : Workflow) (res : ResultMap)
    (now i : Nat) (h : i ≠ w.currentStep) :
    markStepCompletedAt w res now i =
      { w with steps := modifyIdx (completeUpd res now) w.steps i,
               updatedAt := now } := by
  unfold markStepCompletedAt
  dsimp only
  rw [if_neg h]

theorem markStepCompletedAt_cur_mid (w : Workflow) (res : ResultMap)
    (now : Nat) (h : ¬ w.currentStep + 1 ≥ w.steps.length) :
    markStepCompletedAt w res now w.currentStep =
      { w with steps := modifyIdx (completeUpd res now) w.steps
                 w.currentStep,
               updatedAt := now, currentStep := w.currentStep + 1 } := by
  unfold markStepCompletedAt
  dsimp only
  rw [if_pos rfl, if_neg h]

theorem markStepCompletedAt_cur_last (w : Workflow) (res : ResultMap)
    (now : Nat) (h : w.currentStep + 1 ≥ w.steps.length) :
    markStepCompletedAt w res now w.currentStep =
      { w with steps := modifyIdx (completeUpd res now) w.steps
                 w.currentStep,
               updatedAt := now, currentStep := w.currentStep + 1,
               status := .completed, completedAt := some now } := by
  unfold markStepCompletedAt
  dsimp only
  rw [if_pos rfl, if_pos h]

theorem CompleteStepCore_false_eq (w : Workflow) (sid : String)
    (res : ResultMap) (errorMsg : String) (now : Nat) (env : PubEnv) :
    CompleteStepCore w sid false res errorMsg now env =
      (w.MarkStepFailed sid errorMsg now,
        [.workflowFailed w.id errorMsg],
        some (.stepFailed errorMsg)) := by
  unfold CompleteStepCore
  simp only [Bool.false_eq_true, if_false]

theorem CompleteStepCore_true_completed (w : Workflow) (sid : String)
    (res : ResultMap) (errorMsg : String) (now : Nat) (env : PubEnv)
    (hc : (w.MarkStepCompleted sid res now).status = .completed) :
    CompleteStepCore w sid true res errorMsg now env =
      (w.MarkStepCompleted sid res now,
        [.stepCompleted w.id sid, .workflowCompleted w.id], none) := by
  unfold CompleteStepCore
  simp only [if_true]
  rw [if_pos hc]

theorem CompleteStepCore_true_continue (w : Workflow) (sid : String)
    (res : ResultMap) (errorMsg : String) (now : Nat) (env : PubEnv)
    (hc : ¬ (w.MarkStepCompleted sid res now).status = .completed) :
    CompleteStepCore w sid true res errorMsg now env =
      ((startNextStepInternal (w.MarkStepCompleted sid res now) now
          env).1,
        .stepCompleted w.id sid ::
          (startNextStepInternal (w.MarkStepCompleted sid res now) now
            env).2.1,
        (startNextStepInternal (w.MarkStepCompleted sid res now) now
          env).2.2) := by
  unfold CompleteStepCore
  simp only [if_true]
  rw [if_neg hc]

/-! ## Claim C2: at most one processing step -/

/-- C2: in every reachable workflow state at most one step is
Processing, and immediately after a successful startNextStep the step
at the cursor is Processing and no other step is. -/
theorem c2_at_most_one_processing (w : Workflow) (hw : Reachable w) :
    (∀ (i j : Nat) (si sj : WorkflowStep),
      w.steps[i]? = some si → w.steps[j]? = some sj →
      si.status = .processing → sj.status = .processing → i = j) ∧
    (∀ now env, (startNextStepInternal w now env).2.2 = none →
      ∃ s, (startNextStepInternal w now env).1.steps[
          (startNextStepInternal w now env).1.currentStep]? = some s ∧
        s.status = .processing ∧
        (∀ (j : Nat) (sj : WorkflowStep),
          j ≠ (startNextStepInternal w now env).1.currentStep →
          (startNextStepInternal w now env).1.steps[j]? = some sj →
          sj.status ≠ .processing)) := by
  obtain ⟨hlen, hnd, hcur, hcomp, hproc⟩ := inv_reachable hw
  constructor
  · intro i j si sj hi hj hsi hsj
    rw [hproc i si hi hsi, hproc j sj hj hsj]
  · intro now env _
    by_cases hlt : w.currentStep < w.steps.length
    · have hget : w.steps[w.currentStep]? =
          some (w.steps.get ⟨w.currentStep, hlt⟩) := by
        simp [List.getElem?_eq_getElem hlt]
      have hcs : w.GetCurrentStep =
          some (w.steps.get ⟨w.currentStep, hlt⟩) := by
        rw [GetCurrentStep_some hlt]
        exact hget
      rw [startNextStepInternal_some now env hcs]
      dsimp only
      have hfind := findStepIdx_of_nodup hnd hget rfl
      rw [StartStep_some w now hfind, startStepAt_steps,
        startStepAt_currentStep]
      refine ⟨startUpd now (w.steps.get ⟨w.currentStep, hlt⟩), ?_, rfl, ?_⟩
      · rw [getElem?_modifyIdx, if_pos rfl, hget]
        rfl
      · intro j sj hj hjget hstj
        rw [getElem?_modifyIdx, if_neg (fun hh => hj hh.symm)] at hjget
        exact hj (hproc j sj hjget hstj)
    · exfalso
      have hnone := GetCurrentStep_none (Nat.le_of_not_lt hlt)
      rename_i hok
      rw [startNextStepInternal_none now env hnone] at hok
      simp at hok

/-- Witness for C2 at the reachable workflow demoW0 with a successful
start of its current step. -/
theorem c2_at_most_one_processing_witness :
    (∀ (i j : Nat) (si sj : WorkflowStep),
      demoW0.steps[i]? = some si →
      demoW0.steps[j]? = some sj → si.status = .processing →
      sj.status = .processing → i = j) ∧
    (∀ now env, (startNextStepInternal demoW0 now env).2.2 = none →
      ∃ s, (startNextStepInternal demoW0 now env).1.steps[
          (startNextStepInternal demoW0 now env).1.currentStep]? =
            some s ∧
        s.status = .processing ∧
        (∀ (j : Nat) (sj : WorkflowStep),
          j ≠ (startNextStepInternal demoW0 now env).1.currentStep →
          (startNextStepInternal demoW0 now env).1.steps[j]? = some sj →
          sj.status ≠ .processing)) :=
  c2_at_most_one_processing demoW0 demoW0_reachable

/-! ## Claim C3: completion with an unknown step id -/

theorem getWf_setWf (m : Manager) (workflowID : String) (w : Workflow) :
    (∃ v, getWf m workflowID = some v) →
    getWf (setWf m workflowID w) workflowID = some w := by
  induction m with
  | nil =>
      rintro ⟨v, hv⟩
      simp [getWf] at hv
  | cons p t ih =>
      rintro ⟨v, hv⟩
      unfold setWf
      rw [List.map_cons]
      by_cases hp : p.1 = workflowID
      · rw [if_pos hp]
        unfold getWf
        rw [List.find?_cons_of_pos _ (by simp)]
        rfl
      · rw [if_neg hp]
        unfold getWf at hv ⊢
        rw [List.find?_cons_of_neg _ (by simpa using hp)] at hv
        rw [List.find?_cons_of_neg _ (by simpa using hp)]
        exact ih ⟨v, hv⟩

theorem ManagerCompleteStep_some (m : Manager) {workflowID : String}
    {w : Workflow} (sid : String) (success : Bool) (res : ResultMap)
    (errorMsg : String) (now : Nat) (env : PubEnv)
    (h : getWf m workflowID = some w) :
    ManagerCompleteStep m workflowID sid success res errorMsg now env =
      (setWf m workflowID
        (CompleteStepCore w sid success res errorMsg now env).1,
        (CompleteStepCore w sid success res errorMsg now env).2.1,
        (CompleteStepCore w sid success res errorMsg now env).2.2) := by
  unfold ManagerCompleteStep
  rw [h]

/-- A second workflow, created but never started (its start publish
failed), stored in a one-entry manager map. -/
def demoWN : Workflow := NewWorkflow "wf2" "p2" "t1" "t2" "t3" demoProduct 0

/-- A manager map holding demoWN. -/
def demoM : Manager := [("wf2", demoWN)]

/-- C3 counterexample: for the known workflow demoWN and the unknown
step id zzz, CompleteStep with success=true mutates the workflow: the
pending current step is re-dispatched and becomes Processing. -/
theorem c3_unknown_step_counterexample :
    getWf demoM "wf2" = some demoWN ∧
    findStepIdx "zzz" demoWN.steps = none ∧
    (demoWN.steps[0]?).map (fun s => s.status) = some .pending ∧
    ((getWf (ManagerCompleteStep demoM "wf2" "zzz" true [] "" 5
        envAll).1 "wf2").map
      (fun w => (w.steps[0]?).map (fun s => s.status))) =
      some (some .processing) :=
  ⟨by decide, by decide, by decide, by decide⟩

/-- C3 (amended): with success=false a CompleteStep carrying an unknown
step id leaves the stored workflow unchanged (while still returning the
step-failure error); with success=true it leaves the workflow unchanged
only when the workflow is Completed, and otherwise re-dispatches the
current step via startNextStep, which re-marks it Processing. -/
theorem c3_unknown_step_amended (m : Manager) (workflowID : String)
    (w : Workflow) (sid : String) (res : ResultMap) (errorMsg : String)
    (now : Nat) (env : PubEnv) (hw : getWf m workflowID = some w)
    (hnone : findStepIdx sid w.steps = none) :
    getWf (ManagerCompleteStep m workflowID sid false res errorMsg now
      env).1 workflowID = some w ∧
    (ManagerCompleteStep m workflowID sid false res errorMsg now
      env).2.2 = some (.stepFailed errorMsg) ∧
    getWf (ManagerCompleteStep m workflowID sid true res errorMsg now
      env).1 workflowID =
      some (if w.status = .completed then w
        else (startNextStepInternal w now env).1) := by
  have hmf := MarkStepFailed_none w errorMsg now hnone
  have hmc := MarkStepCompleted_none w res now hnone
  refine ⟨?_, ?_, ?_⟩
  · rw [ManagerCompleteStep_some m sid false res errorMsg now env hw]
    dsimp only
    rw [CompleteStepCore_false_eq]
    dsimp only
    rw [hmf]
    exact getWf_setWf m workflowID w ⟨w, hw⟩
  · rw [ManagerCompleteStep_some m sid false res errorMsg now env hw]
    dsimp only
    rw [CompleteStepCore_false_eq]
  · rw [ManagerCompleteStep_some m sid true res errorMsg now env hw]
    dsimp only
    by_cases hc : w.status = .completed
    · rw [CompleteStepCore_true_completed w sid res errorMsg now env
        (by rw [hmc]; exact hc)]
      dsimp only
      rw [hmc, if_pos hc]
      exact getWf_setWf m workflowID w ⟨w, hw⟩
    · rw [CompleteStepCore_true_continue w sid res errorMsg now env
        (by rw [hmc]; exact hc)]
      dsimp only
      rw [hmc, if_neg hc]
      exact getWf_setWf m workflowID _ ⟨w, hw⟩

/-- Witness for the amended C3 at the concrete manager demoM with the
unknown step id zzz. -/
theorem c3_unknown_step_amended_witness :
    getWf (ManagerCompleteStep demoM "wf2" "zzz" false [] "oops" 5
      envAll).1 "wf2" = some demoWN ∧
    (ManagerCompleteStep demoM "wf2" "zzz" false [] "oops" 5
      envAll).2.2 = some (.stepFailed "oops") ∧
    getWf (ManagerCompleteStep demoM "wf2" "zzz" true [] "oops" 5
      envAll).1 "wf2" =
      some (if demoWN.status = .completed then demoWN
        else (startNextStepInternal demoWN 5 envAll).1) :=
  c3_unknown_step_amended demoM "wf2" demoWN "zzz" [] "oops" 5 envAll
    (by decide) (by decide)

/-! ## Claim C5: successful completion of a non-final current step -/

/-- C5: completing the current, non-final step with success=true (with
the dispatch publish succeeding) advances the cursor by exactly one,
marks the step Completed with the supplied result, and puts the new
current step into Processing. -/
theorem c5_success_non_final (w : Workflow) (st : WorkflowStep)
    (res : ResultMap) (errorMsg : String) (now : Nat) (env : PubEnv)
    (hw : Reachable w)
    (hlt : w.currentStep + 1 < w.steps.length)
    (hst : w.steps[w.currentStep]? = some st)
    (henv : env.nextOk = true) :
    (CompleteStepCore w st.id true res errorMsg now env).1.currentStep =
      w.currentStep + 1 ∧
    (CompleteStepCore w st.id true res errorMsg now
      env).1.steps[w.currentStep]? = some (completeUpd res now st) ∧
    (∃ s2, (CompleteStepCore w st.id true res errorMsg now
        env).1.steps[w.currentStep + 1]? = some s2 ∧
      s2.status = .processing ∧ s2.startedAt = some now) ∧
    (CompleteStepCore w st.id true res errorMsg now env).2.2 = none := by
  obtain ⟨hlen, hnd, hcur, hcomp, hproc⟩ := inv_reachable hw
  have hfind : findStepIdx st.id w.steps = some w.currentStep :=
    findStepIdx_of_nodup hnd hst rfl
  have hmc := MarkStepCompleted_some w res now hfind
  have hmid : ¬ w.currentStep + 1 ≥ w.steps.length := by omega
  have hstatus1 : (w.MarkStepCompleted st.id res now).status = w.status := by
    rw [hmc, markStepCompletedAt_cur_mid w res now hmid]
  have hnotc : ¬ (w.MarkStepCompleted st.id res now).status = .completed := by
    rw [hstatus1]
    intro hcst
    have := hcomp hcst
    omega
  have hlen1 : (w.MarkStepCompleted st.id res now).steps.length =
      w.steps.length := by
    rw [hmc, markStepCompletedAt_cur_mid w res now hmid]
    exact modifyIdx_length _ _ _
  have hcur1 : (w.MarkStepCompleted st.id res now).currentStep =
      w.currentStep + 1 := by
    rw [hmc, markStepCompletedAt_cur_mid w res now hmid]
  have hsteps1 : (w.MarkStepCompleted st.id res now).steps =
      modifyIdx (completeUpd res now) w.steps w.currentStep := by
    rw [hmc, markStepCompletedAt_cur_mid w res now hmid]
  have hget2 : w.steps[w.currentStep + 1]? =
      some (w.steps.get ⟨w.currentStep + 1, hlt⟩) := by
    simp [List.getElem?_eq_getElem hlt]
  have hget2w1 : (w.MarkStepCompleted st.id res
      now).steps[w.currentStep + 1]? =
      some (w.steps.get ⟨w.currentStep + 1, hlt⟩) := by
    rw [hsteps1, getElem?_modifyIdx, if_neg (by omega)]
    exact hget2
  have hlt1 : (w.MarkStepCompleted st.id res now).currentStep <
      (w.MarkStepCompleted st.id res now).steps.length := by
    rw [hcur1, hlen1]
    exact hlt
  have hgcs : (w.MarkStepCompleted st.id res now).GetCurrentStep =
      some (w.steps.get ⟨w.currentStep + 1, hlt⟩) := by
    rw [GetCurrentStep_some hlt1, hcur1]
    exact hget2w1
  have hnd1 : (stepIds (w.MarkStepCompleted st.id res now)).Nodup := by
    unfold stepIds
    rw [hsteps1,
      map_id_modifyIdx (completeUpd res now) (fun s => rfl) w.steps
        w.currentStep]
    exact hnd
  have hfind2 : findStepIdx (w.steps.get ⟨w.currentStep + 1, hlt⟩).id
      (w.MarkStepCompleted st.id res now).steps =
      some (w.currentStep + 1) := by
    refine findStepIdx_of_nodup hnd1 ?_ rfl
    exact hget2w1
  rw [CompleteStepCore_true_continue w st.id res errorMsg now env hnotc]
  dsimp only
  rw [startNextStepInternal_some now env hgcs]
  dsimp only
  rw [StartStep_some _ now hfind2]
  refine ⟨?_, ?_, ?_, ?_⟩
  · rw [startStepAt_currentStep]
    exact hcur1
  · rw [startStepAt_steps, getElem?_modifyIdx, if_neg (by omega),
      hsteps1, getElem?_modifyIdx, if_pos rfl, hst]
    rfl
  · refine ⟨startUpd now (w.steps.get ⟨w.currentStep + 1, hlt⟩), ?_,
      rfl, rfl⟩
    rw [startStepAt_steps, getElem?_modifyIdx, if_pos rfl, hget2w1]
    rfl
  · rw [henv]
    rfl

/-- The first step of demoW0 as it stands after being started. -/
def demoStep0 : WorkflowStep :=
  { id := "s1", type := .image_processing, status := .processing,
    serviceName := "image-service", startedAt := some 0,
    completedAt := none, result := [], errorMsg := "" }

/-- Witness for C5: completing the first step of demoW0 advances the
cursor to 1. -/
theorem c5_success_non_final_witness :
    (CompleteStepCore demoW0 demoStep0.id true [("url", "x")] "" 1
      envAll).1.currentStep = demoW0.currentStep + 1 :=
  (c5_success_non_final demoW0 demoStep0 [("url", "x")] "" 1 envAll
    demoW0_reachable (by decide) (by decide) rfl).1

/-! ## Claim C6: successful completion of the final step -/

/-- C6 (amended): completing the final step with success=true on a
reachable workflow whose cursor points at it marks the workflow
Completed with a non-null completedAt and cursor equal to the number of
steps, publishing only the step-completed and workflow-completed
events; and whenever a reachable workflow is Completed its cursor
equals the number of steps.  (The converse direction of the iff fails,
and steps can still transition after completion: a later failure report
marks a step and the workflow Failed while the cursor stays at the
end.) -/
theorem c6_final_step_amended (w : Workflow) (hw : Reachable w) :
    (w.status = .completed → w.currentStep = w.steps.length) ∧
    (∀ (st : WorkflowStep) (res : ResultMap) (errorMsg : String)
      (now : Nat) (env : PubEnv),
      w.currentStep + 1 = w.steps.length →
      w.steps[w.currentStep]? = some st →
      (CompleteStepCore w st.id true res errorMsg now env).1.status =
        .completed ∧
      (CompleteStepCore w st.id true res errorMsg now
        env).1.completedAt = some now ∧
      (CompleteStepCore w st.id true res errorMsg now
        env).1.currentStep =
        (CompleteStepCore w st.id true res errorMsg now
          env).1.steps.length ∧
      (CompleteStepCore w st.id true res errorMsg now env).2.1 =
        [.stepCompleted w.id st.id, .workflowCompleted w.id] ∧
      (CompleteStepCore w st.id true res errorMsg now env).2.2 =
        none) := by
  obtain ⟨hlen, hnd, hcur, hcomp, hproc⟩ := inv_reachable hw
  refine ⟨hcomp, ?_⟩
  intro st res errorMsg now env hfin hst
  have hfind : findStepIdx st.id w.steps = some w.currentStep :=
    findStepIdx_of_nodup hnd hst rfl
  have hmc := MarkStepCompleted_some w res now hfind
  have hend : w.currentStep + 1 ≥ w.steps.length := by omega
  have hw1 := markStepCompletedAt_cur_last w res now hend
  have hstat : (w.MarkStepCompleted st.id res now).status =
      .completed := by
    rw [hmc, hw1]
  rw [CompleteStepCore_true_completed w st.id res errorMsg now env hstat]
  dsimp only
  refine ⟨hstat, ?_, ?_, rfl, rfl⟩
  · rw [hmc, hw1]
  · rw [hmc, hw1]
    dsimp only
    rw [modifyIdx_length]
    omega

/-- The third step of demoW2 as it stands after being started. -/
def demoStep3 : WorkflowStep :=
  { id := "s3", type := .seo_generation, status := .processing,
    serviceName := "seo-service", startedAt := some 2,
    completedAt := none, result := [], errorMsg := "" }

/-- Witness for the amended C6: completing the last step of demoW2
yields a Completed workflow. -/
theorem c6_final_step_amended_witness :
    (CompleteStepCore demoW2 demoStep3.id true [] "" 3
      envAll).1.status = .completed :=
  ((c6_final_step_amended demoW2 demoW2_reachable).2 demoStep3 [] "" 3
    envAll (by decide) (by decide)).1

/-- C6 counterexample: demoW4 shows that after the final-step
completion of demoW3 a step may still transition (step s1 goes from
Completed to Failed on a later failure report) and that the cursor can
equal the number of steps while the workflow is not Completed, refuting
the no-further-transition clause and the only-if direction of the
iff. -/
theorem c6_final_step_counterexample :
    Reachable demoW4 ∧
    (demoW3.steps[0]?).map (fun s => s.status) = some .completed ∧
    (demoW4.steps[0]?).map (fun s => s.status) = some .failed ∧
    demoW4.currentStep = demoW4.steps.length ∧
    demoW4.status ≠ .completed :=
  ⟨demoW4_reachable, by decide, by decide, by decide, by decide⟩

/-! ## Claim C7: failure reports -/

/-- C7: a CompleteStep with success=false for a known workflow and a
matching step id marks that step Failed with the message verbatim,
marks the workflow Failed with the same message, publishes only the
workflow-failed event (dispatching no further step), and returns a
step-failure error carrying the message; the stored state does not
depend on whether any publish succeeds (env is arbitrary and absent
from every conclusion). -/
theorem c7_failure_path (m : Manager) (workflowID : String)
    (w : Workflow) (sid : String) (j : Nat) (s : WorkflowStep)
    (res : ResultMap) (errorMsg : String) (now : Nat) (env : PubEnv)
    (hw : getWf m workflowID = some w)
    (hfind : findStepIdx sid w.steps = some j)
    (hs : w.steps[j]? = some s) :
    getWf (ManagerCompleteStep m workflowID sid false res errorMsg now
      env).1 workflowID = some (w.MarkStepFailed sid errorMsg now) ∧
    (w.MarkStepFailed sid errorMsg now).steps[j]? =
      some (failUpd errorMsg s) ∧
    (failUpd errorMsg s).status = .failed ∧
    (failUpd errorMsg s).errorMsg = errorMsg ∧
    (w.MarkStepFailed sid errorMsg now).status = .failed ∧
    (w.MarkStepFailed sid errorMsg now).errorMsg = errorMsg ∧
    (ManagerCompleteStep m workflowID sid false res errorMsg now
      env).2.1 = [.workflowFailed w.id errorMsg] ∧
    (ManagerCompleteStep m workflowID sid false res errorMsg now
      env).2.2 = some (.stepFailed errorMsg) := by
  have hmf := MarkStepFailed_some w errorMsg now hfind
  refine ⟨?_, ?_, rfl, rfl, ?_, ?_, ?_, ?_⟩
  · rw [ManagerCompleteStep_some m sid false res errorMsg now env hw]
    dsimp only
    rw [CompleteStepCore_false_eq]
    exact getWf_setWf m workflowID _ ⟨w, hw⟩
  · rw [hmf]
    unfold markStepFailedAt
    dsimp only
    rw [getElem?_modifyIdx, if_pos rfl, hs]
    rfl
  · rw [hmf]
    rfl
  · rw [hmf]
    rfl
  · rw [ManagerCompleteStep_some m sid false res errorMsg now env hw]
    dsimp only
    rw [CompleteStepCore_false_eq]
  · rw [ManagerCompleteStep_some m sid false res errorMsg now env hw]
    dsimp only
    rw [CompleteStepCore_false_eq]

/-- Witness for C7: failing step t2 of demoWN returns the step-failure
error carrying the message and stores the failed workflow. -/
theorem c7_failure_path_witness :
    (ManagerCompleteStep demoM "wf2" "t2" false [] "bad" 6
      envAll).2.2 = some (.stepFailed "bad") ∧
    (ManagerCompleteStep demoM "wf2" "t2" false [] "bad" 6
      envAll).2.1 = [.workflowFailed demoWN.id "bad"] :=
  ⟨(c7_failure_path demoM "wf2" demoWN "t2" 1
      ⟨"t2", .ai_enhancement, .pending, "ai-service", none, none, [], ""⟩
      [] "bad" 6 envAll (by decide) (by decide)
      (by decide)).2.2.2.2.2.2.2,
   (c7_failure_path demoM "wf2" demoWN "t2" 1
      ⟨"t2", .ai_enhancement, .pending, "ai-service", none, none, [], ""⟩
      [] "bad" 6 envAll (by decide) (by decide)
      (by decide)).2.2.2.2.2.2.1⟩

/-! ## Claim C10: success report for a non-current step -/

/-- C10: completing a step other than the current one with success=true
marks that step Completed with the supplied result, leaves the cursor
unchanged, and (when the workflow is not Completed) re-invokes step
start on the current step, which becomes Processing with its startedAt
overwritten by the current time. -/
theorem c10_noncurrent_success (w : Workflow) (j : Nat)
    (sj sc : WorkflowStep) (res : ResultMap) (errorMsg : String)
    (now : Nat) (env : PubEnv)
    (hnd : (stepIds w).Nodup)
    (hj : w.steps[j]? = some sj)
    (hne : j ≠ w.currentStep)
    (hc : w.steps[w.currentStep]? = some sc)
    (hstatus : w.status ≠ .completed) :
    (CompleteStepCore w sj.id true res errorMsg now env).1.currentStep =
      w.currentStep ∧
    (CompleteStepCore w sj.id true res errorMsg now env).1.steps[j]? =
      some (completeUpd res now sj) ∧
    (CompleteStepCore w sj.id true res errorMsg now
      env).1.steps[w.currentStep]? = some (startUpd now sc) := by
  have hfind : findStepIdx sj.id w.steps = some j :=
    findStepIdx_of_nodup hnd hj rfl
  have hmc := MarkStepCompleted_some w res now hfind
  have hw1 := markStepCompletedAt_noncur w res now j hne
  have hstat1 : (w.MarkStepCompleted sj.id res now).status = w.status := by
    rw [hmc, hw1]
  have hnotc : ¬ (w.MarkStepCompleted sj.id res now).status =
      .completed := by
    rw [hstat1]
    exact hstatus
  have hcur1 : (w.MarkStepCompleted sj.id res now).currentStep =
      w.currentStep := by
    rw [hmc, hw1]
  have hsteps1 : (w.MarkStepCompleted sj.id res now).steps =
      modifyIdx (completeUpd res now) w.steps j := by
    rw [hmc, hw1]
  have hcltlen : w.currentStep < w.steps.length :=
    (List.getElem?_eq_some.mp hc).1
  have hgetc1 : (w.MarkStepCompleted sj.id res
      now).steps[w.currentStep]? = some sc := by
    rw [hsteps1, getElem?_modifyIdx, if_neg hne]
    exact hc
  have hlt1 : (w.MarkStepCompleted sj.id res now).currentStep <
      (w.MarkStepCompleted sj.id res now).steps.length := by
    rw [hcur1, hsteps1, modifyIdx_length]
    exact hcltlen
  have hgcs : (w.MarkStepCompleted sj.id res now).GetCurrentStep =
      some sc := by
    rw [GetCurrentStep_some hlt1, hcur1]
    exact hgetc1
  have hnd1 : (stepIds (w.MarkStepCompleted sj.id res now)).Nodup := by
    unfold stepIds
    rw [hsteps1,
      map_id_modifyIdx (completeUpd res now) (fun s => rfl) w.steps j]
    exact hnd
  have hfind2 : findStepIdx sc.id
      (w.MarkStepCompleted sj.id res now).steps =
      some w.currentStep := by
    refine findStepIdx_of_nodup hnd1 ?_ rfl
    exact hgetc1
  rw [CompleteStepCore_true_continue w sj.id res errorMsg now env hnotc]
  dsimp only
  rw [startNextStepInternal_some now env hgcs]
  dsimp only
  rw [StartStep_some _ now hfind2]
  refine ⟨?_, ?_, ?_⟩
  · rw [startStepAt_currentStep, hcur1]
  · rw [startStepAt_steps, getElem?_modifyIdx,
      if_neg (fun hh => hne hh.symm), hsteps1, getElem?_modifyIdx,
      if_pos rfl, hj]
    rfl
  · rw [startStepAt_steps, getElem?_modifyIdx, if_pos rfl, hgetc1]
    rfl

/-- Witness for C10: completing the pending non-current step s2 of
demoW0 leaves the cursor at 0 (the current step is re-dispatched). -/
theorem c10_noncurrent_success_witness :
    (CompleteStepCore demoW0 "s2" true [] "" 9
      envAll).1.currentStep = demoW0.currentStep :=
  (c10_noncurrent_success demoW0 1
    ⟨"s2", .ai_enhancement, .pending, "ai-service", none, none, [], ""⟩
    demoStep0 [] "" 9 envAll (by decide) (by decide) (by decide)
    (by decide) (by decide)).1

end Stox
